import Mathlib

/-!
Shallow embedding of the task-dispatch and analysis subsystem of the
`streameme_backend` repository (src/analyzer/mod.rs, src/analyzer/task.rs,
src/analyzer.rs), together with theorems settling the spec claims.

Effectful Rust code (`VideoAnalyzer::analyze`, the worker loop
`VideoAnalyzer::run`, channel sends) is embedded by passing the ambient
world explicitly: filesystem/process outcomes become an `AnalyzeEnv`
record of `Except`-valued results, the mpsc queue becomes the list of
tasks it delivers, and the oneshot reply channel becomes a liveness flag
on the receiving side.
-/

namespace Streameme

/-- Embeds `VideoAnalyzerMode` from src/analyzer/mod.rs (repr(u8): Binary = 0, Multi = 1). -/
inductive VideoAnalyzerMode where
  | Binary
  | Multi
deriving DecidableEq, Repr, Inhabited

/-- The u8 discriminants declared in the Rust enum. -/
def VideoAnalyzerMode.toRepr8 : VideoAnalyzerMode → Nat
  | .Binary => 0
  | .Multi => 1

/-- Embeds `MemeType` from src/analyzer/mod.rs (repr(u8)). -/
inductive MemeType where
  | Happiness
  | Love
  | Anger
  | Sorrow
  | Hate
  | Surprise
deriving DecidableEq, Repr, Inhabited

/-- The u8 discriminants declared in the Rust enum, used by Serialize_repr. -/
def MemeType.toRepr8 : MemeType → Nat
  | .Happiness => 0
  | .Love => 1
  | .Anger => 2
  | .Sorrow => 3
  | .Hate => 4
  | .Surprise => 5

/-- Embeds `MemeTypeDesc::new` from src/analyzer/mod.rs; `MemeTypeDesc` is a
transparent wrapper around the produced `String`. -/
def MemeTypeDesc.new : MemeType → String
  | .Happiness => "happiness"
  | .Love => "love"
  | .Anger => "anger"
  | .Sorrow => "sorrow"
  | .Hate => "hate"
  | .Surprise => "surprise"

/-- Modelled from the spec: one record of the external procedure's result
file, "a sequence of JSON objects, each with integer `start`, integer
`end`, and a string `suggestion`" (§6). The defining Rust module
(`mod inference`) is not among the provided sources; only its use sites
(`unit.start`, `unit.end`, `unit.suggestion`) are. -/
structure InferenceUnit where
  start : Nat
  «end» : Nat
  suggestion : String
deriving DecidableEq, Repr

/-- Modelled from the spec: `InferenceOutput` wraps the parsed sequence of
records; `into_inner` surrenders it (as used by both `From` impls). -/
structure InferenceOutput where
  units : List InferenceUnit
deriving DecidableEq, Repr

/-- Embeds `InferenceOutput::into_inner`, as consumed by the `From` impls. -/
def InferenceOutput.into_inner (o : InferenceOutput) : List InferenceUnit :=
  o.units

/-- Embeds `VideoAnalyzerSuggestion` from src/analyzer/mod.rs. `meme_type_desc`
holds the transparent `MemeTypeDesc` string. -/
structure VideoAnalyzerSuggestion where
  start : Nat
  «end» : Nat
  meme_type : MemeType
  meme_type_desc : String
deriving DecidableEq, Repr

/-- Embeds `VideoAnalyzerSuggestion::new` from src/analyzer/mod.rs. -/
def VideoAnalyzerSuggestion.new (start end_ : Nat) (meme_type : MemeType) :
    VideoAnalyzerSuggestion :=
  { start := start
    «end» := end_
    meme_type := meme_type
    meme_type_desc := MemeTypeDesc.new meme_type }

/-- Embeds `VideoAnalyzerOutput` from src/analyzer/mod.rs: a transparent wrapper
around `Option<Vec<VideoAnalyzerSuggestion>>`. -/
structure VideoAnalyzerOutput where
  suggestions : Option (List VideoAnalyzerSuggestion)
deriving DecidableEq, Repr

/-- The derived `Default` for `VideoAnalyzerOutput` (`None` inside). -/
def VideoAnalyzerOutput.default : VideoAnalyzerOutput :=
  { suggestions := none }

/-- Embeds `impl From<Vec<VideoAnalyzerSuggestion>> for VideoAnalyzerOutput`
from src/analyzer/mod.rs: wraps the vector in `Some`. -/
def VideoAnalyzerOutput.fromSuggestions (suggestions : List VideoAnalyzerSuggestion) :
    VideoAnalyzerOutput :=
  { suggestions := some suggestions }

/-- The per-record closure of `impl From<InferenceOutput> for
VideoAnalyzerOutput` in src/analyzer/mod.rs: match on the label string,
`return None` on an unrecognized label, otherwise build a suggestion. -/
def convertUnitMod (unit : InferenceUnit) : Option VideoAnalyzerSuggestion := do
  let meme_type ←
    match unit.suggestion with
    | "happiness" => some MemeType.Happiness
    | "love" => some MemeType.Love
    | "anger" => some MemeType.Anger
    | "sorrow" => some MemeType.Sorrow
    | "hate" => some MemeType.Hate
    | "surprise" => some MemeType.Surprise
    | _ => none
  some (VideoAnalyzerSuggestion.new unit.start unit.«end» meme_type)

/-- Embeds `impl From<InferenceOutput> for VideoAnalyzerOutput` from
src/analyzer/mod.rs: filter_map over the records, then wrap via
`From<Vec<_>>`. -/
def VideoAnalyzerOutput.fromInference (output : InferenceOutput) : VideoAnalyzerOutput :=
  VideoAnalyzerOutput.fromSuggestions (output.into_inner.filterMap convertUnitMod)

/-- The string-to-MemeType table used by the `From` impls, written as a
lookup so spec-level statements can refer to it. -/
def memeTypeOfString : String → Option MemeType
  | "happiness" => some MemeType.Happiness
  | "love" => some MemeType.Love
  | "anger" => some MemeType.Anger
  | "sorrow" => some MemeType.Sorrow
  | "hate" => some MemeType.Hate
  | "surprise" => some MemeType.Surprise
  | _ => none

/-- The closed enumeration of recognized labels (§3 of the spec). -/
def recognizedLabels : List String :=
  ["happiness", "love", "anger", "sorrow", "hate", "surprise"]

namespace Root

/-- The per-record closure of the older `impl From<InferenceOutput> for
VideoAnalyzerOutput` in src/analyzer.rs (the file-level module shadowed by
src/analyzer/mod.rs). -/
def convertUnit (unit : InferenceUnit) : Option VideoAnalyzerSuggestion := do
  let meme_type ←
    match unit.suggestion with
    | "happiness" => some MemeType.Happiness
    | "love" => some MemeType.Love
    | "anger" => some MemeType.Anger
    | "sorrow" => some MemeType.Sorrow
    | "hate" => some MemeType.Hate
    | "surprise" => some MemeType.Surprise
    | _ => none
  some (VideoAnalyzerSuggestion.new unit.start unit.«end» meme_type)

/-- Embeds `impl From<InferenceOutput> for VideoAnalyzerOutput` from
src/analyzer.rs: filter_map over the records, then wrap in `Some` via
`From<Vec<_>>`. -/
def fromInference (output : InferenceOutput) : VideoAnalyzerOutput :=
  { suggestions := some (output.into_inner.filterMap convertUnit) }

end Root

/-- Embeds `Task` from src/analyzer/task.rs: one immutable analysis request. -/
structure Task where
  video_path : String
  video_name : String
  analyze_mode : VideoAnalyzerMode
deriving DecidableEq, Repr

/-- An abstract `std::io::Error` value, identified by its message. -/
structure IoError where
  msg : String
deriving DecidableEq, Repr

/-- The scratch directory produced by `TempDir::new_in(".")`. -/
structure ScratchDir where
  path : String
deriving DecidableEq, Repr

/-- The captured result of `std::process::Command::output()`:
exit status plus captured stderr text. -/
structure ProcOutput where
  exitSuccess : Bool
  stderr : String
deriving DecidableEq, Repr

/-- The ambient world as seen by `VideoAnalyzer::analyze`: each fallible
step the function performs is a field giving that step's outcome.
`runProcess` receives the argument list the code constructs, so theorems
can observe the exact invocation. -/
structure AnalyzeEnv where
  tempDir : Except IoError ScratchDir
  canonicalize : Except IoError String
  runProcess : List String → Except IoError ProcOutput
  readOutputFile : String → Except IoError String
  parseInference : String → Except IoError InferenceOutput

/-- The program run by `analyze` (`Command::new(...)`). -/
def inferenceCommandProgram : String := "./.venv/bin/python"

/-- The argument list built by `analyze` in src/analyzer/mod.rs lines
98-107: the script name, then `--video_path`, `--video_name`,
`--output_dir` with their values. -/
def inferenceCommandArgs (task : Task) (outDirPath : String) : List String :=
  ["inference.py",
   "--video_path", task.video_path,
   "--video_name", task.video_name,
   "--output_dir", outDirPath]

/-- The well-known result file read after a success exit
(`out_dir.path() / "suggestions.json"`). -/
def suggestionsFilePath (outDirPath : String) : String :=
  outDirPath ++ "/suggestions.json"

/-- Embeds `VideoAnalyzer::analyze` from src/analyzer/mod.rs: create the scratch
directory, canonicalize the working directory, run the external command,
then either parse `suggestions.json` (success exit) or return the
default output (non-zero exit). Every `?` in the Rust becomes a bind. -/
def VideoAnalyzer.analyze (env : AnalyzeEnv) (task : Task) :
    Except IoError VideoAnalyzerOutput := do
  let out_dir ← env.tempDir
  let _command_dir ← env.canonicalize
  let output ← env.runProcess (inferenceCommandArgs task out_dir.path)
  if output.exitSuccess then
    let inference_out_str ← env.readOutputFile (suggestionsFilePath out_dir.path)
    let inference_output ← env.parseInference inference_out_str
    Except.ok (VideoAnalyzerOutput.fromInference inference_output)
  else
    Except.ok VideoAnalyzerOutput.default

/-- Embeds `SpawnedTask` from src/analyzer/task.rs: a task paired with the
producer half of its oneshot reply channel. The channel is embedded as a
flag saying whether the receiving half is still held when the worker
replies. -/
structure SpawnedTask where
  task : Task
  receiverAlive : Bool
deriving DecidableEq, Repr

/-- Embeds `SpawnedTask::send` from src/analyzer/task.rs: `oneshot::Sender::send`
succeeds iff the receiver is still alive; on failure the unsent value is
handed back in the error. -/
def SpawnedTask.send (st : SpawnedTask) (output : Except IoError VideoAnalyzerOutput) :
    Except (Except IoError VideoAnalyzerOutput) Unit :=
  if st.receiverAlive then Except.ok () else Except.error output

/-- One observable step of the worker loop: the external analysis of a
task begins, or it ends (recording whether the reply delivery
succeeded). -/
inductive WorkerEvent where
  | beginExec (t : Task)
  | endExec (t : Task) (sendOk : Bool)
deriving DecidableEq, Repr

/-- Embeds `VideoAnalyzer::run` from src/analyzer/mod.rs lines 65-70, as a trace
semantics: the mpsc queue is the list of tasks it will deliver before all
senders drop; each iteration analyzes the received task, sends the result,
and discards the send's outcome (`let _ = task.send(output)`). -/
def VideoAnalyzer.run (env : AnalyzeEnv) : List SpawnedTask → List WorkerEvent
  | [] => []
  | st :: rest =>
    let output := VideoAnalyzer.analyze env st.task
    let sendResult := st.send output
    WorkerEvent.beginExec st.task
      :: WorkerEvent.endExec st.task sendResult.toBool
      :: VideoAnalyzer.run env rest

/-- The tasks whose execution the trace records as begun, in order. -/
def executedTasks : List WorkerEvent → List Task :=
  List.filterMap fun e =>
    match e with
    | WorkerEvent.beginExec t => some t
    | WorkerEvent.endExec _ _ => none

/-- The number of executions in progress after a list of events:
`beginExec` opens one, `endExec` closes one. Counted in `Int` so an
unmatched `endExec` would be visible as a negative depth. -/
def execDepth : List WorkerEvent → Int
  | [] => 0
  | WorkerEvent.beginExec _ :: rest => 1 + execDepth rest
  | WorkerEvent.endExec _ _ :: rest => -1 + execDepth rest

/-- The state of the analyzer's mpsc buffer as the submitters see it:
whether the consumer (the worker and its receiver) is still alive, and
the queued tasks in arrival order. -/
structure BufferState where
  consumerOpen : Bool
  queued : List SpawnedTask
deriving DecidableEq, Repr

/-- Embeds `VideoAnalyzerBuffer::send` from src/analyzer/mod.rs:
`mpsc::Sender::send` enqueues without blocking and fails only when the
receiver is gone, returning the unsent value inside `SendError`. -/
def VideoAnalyzerBuffer.send (buf : BufferState) (st : SpawnedTask) :
    Except SpawnedTask BufferState :=
  if buf.consumerOpen then
    Except.ok { buf with queued := buf.queued ++ [st] }
  else
    Except.error st

/-- Embeds `SpawnedTaskHandle` from src/analyzer/task.rs: the consumer half of
the oneshot reply channel handed back to the submitter. -/
structure SpawnedTaskHandle where
  forTask : Task
deriving DecidableEq, Repr

/-- Embeds `Task::spawn` from src/analyzer/task.rs lines 81-94: create a fresh
oneshot channel, wrap the task, push it into the buffer, and map a send
failure back to `mpsc::SendError` carrying the original `Task`
(`.map_err(|e| mpsc::SendError(e.0.task))`). -/
def Task.spawn (task : Task) (buf : BufferState) :
    Except Task (BufferState × SpawnedTaskHandle) :=
  let spawned : SpawnedTask := { task := task, receiverAlive := true }
  match VideoAnalyzerBuffer.send buf spawned with
  | Except.ok buf' => Except.ok (buf', { forTask := task })
  | Except.error e => Except.error e.task

/-- serde_json serialization of one `VideoAnalyzerSuggestion`
(`meme_type` serializes as its u8 via Serialize_repr, `meme_type_desc`
transparently as its string). -/
def serializeSuggestion (s : VideoAnalyzerSuggestion) : String :=
  "\x7b\"start\":" ++ toString s.start ++
    ",\"end\":" ++ toString s.«end» ++
    ",\"meme_type\":" ++ toString s.meme_type.toRepr8 ++
    ",\"meme_type_desc\":\"" ++ s.meme_type_desc ++ "\"\x7d"

/-- serde_json serialization of `VideoAnalyzerOutput`: the transparent
wrapper serializes as its `Option` field, `None` as `null` and
`Some(vec)` as a JSON array. -/
def serializeOutput (out : VideoAnalyzerOutput) : String :=
  match out.suggestions with
  | none => "null"
  | some l => "[" ++ String.intercalate "," (l.map serializeSuggestion) ++ "]"

/-- A sample environment for exercising the theorems at concrete inputs:
every step succeeds and the parsed result file is empty. -/
def sampleEnv : AnalyzeEnv :=
  { tempDir := Except.ok ⟨"./tmp0"⟩
    canonicalize := Except.ok "/srv/streameme_inference"
    runProcess := fun _ => Except.ok ⟨true, ""⟩
    readOutputFile := fun _ => Except.ok "[]"
    parseInference := fun _ => Except.ok ⟨[]⟩ }

/-! ## Helper lemmas -/

/-- The match-with-early-return closure of the `From` impl computes the
lookup-table map on each record. -/
theorem convertUnitMod_eq_lookup (u : InferenceUnit) :
    convertUnitMod u =
      (memeTypeOfString u.suggestion).map
        (fun mt => VideoAnalyzerSuggestion.new u.start u.«end» mt) := by
  unfold convertUnitMod memeTypeOfString
  split <;> rfl

/-- Parsing is a left inverse of the description table. -/
theorem memeTypeOfString_new (t : MemeType) :
    memeTypeOfString (MemeTypeDesc.new t) = some t := by
  cases t <;> rfl

/-- The description table is a left inverse of parsing: a successfully
parsed label is recovered exactly by `MemeTypeDesc::new`. -/
theorem new_memeTypeOfString (s : String) (t : MemeType)
    (h : memeTypeOfString s = some t) : MemeTypeDesc.new t = s := by
  unfold memeTypeOfString at h
  split at h <;> simp_all <;> subst h <;> rfl

/-- A label parses successfully exactly when it is in the closed
enumeration of recognized labels. -/
theorem memeTypeOfString_isSome_iff (s : String) :
    (memeTypeOfString s).isSome = recognizedLabels.contains s := by
  unfold memeTypeOfString recognizedLabels
  split <;> simp_all

/-! ## Claim theorems: parsing and mapping -/

/-- C4: every record whose label parses through the closed table is mapped
to the corresponding `MemeType` and every other record is silently
discarded (the retained records are exactly those with a recognized label,
in order, with `start`/`end` preserved); in particular the input
`[(0,5,"anger"), (5,9,"confusion")]` yields exactly one suggestion,
`anger` over 0-5. -/
theorem fromInference_filters_unknown_labels :
    (∀ units : List InferenceUnit,
       (VideoAnalyzerOutput.fromInference ⟨units⟩).suggestions =
         some (units.filterMap fun u =>
           (memeTypeOfString u.suggestion).map
             (fun mt => VideoAnalyzerSuggestion.new u.start u.«end» mt)) ∧
       ((VideoAnalyzerOutput.fromInference ⟨units⟩).suggestions.getD []).map
           (fun s => (s.start, s.«end»)) =
         (units.filter fun u => recognizedLabels.contains u.suggestion).map
           (fun u => (u.start, u.«end»))) ∧
    VideoAnalyzerOutput.fromInference ⟨[⟨0, 5, "anger"⟩, ⟨5, 9, "confusion"⟩]⟩ =
      ⟨some [⟨0, 5, MemeType.Anger, "anger"⟩]⟩ := by
  constructor
  · intro units
    constructor
    · simp only [VideoAnalyzerOutput.fromInference, VideoAnalyzerOutput.fromSuggestions,
        InferenceOutput.into_inner, Option.some.injEq]
      have hfun : convertUnitMod = fun u =>
          (memeTypeOfString u.suggestion).map
            (fun mt => VideoAnalyzerSuggestion.new u.start u.«end» mt) :=
        funext convertUnitMod_eq_lookup
      rw [hfun]
    · simp only [VideoAnalyzerOutput.fromInference, VideoAnalyzerOutput.fromSuggestions,
        InferenceOutput.into_inner, Option.getD_some]
      induction units with
      | nil => rfl
      | cons u us ih =>
        rw [List.filterMap_cons, List.filter_cons, convertUnitMod_eq_lookup]
        cases h : memeTypeOfString u.suggestion with
        | none =>
          have hc := memeTypeOfString_isSome_iff u.suggestion
          rw [h] at hc
          have hmem : u.suggestion ∉ recognizedLabels := by simpa using hc.symm
          simp [hmem, ih]
        | some mt =>
          have hc := memeTypeOfString_isSome_iff u.suggestion
          rw [h] at hc
          have hmem : u.suggestion ∈ recognizedLabels := by simpa using hc.symm
          simp [hmem, ih, VideoAnalyzerSuggestion.new]
  · decide

/-- C9: the label parser and the description table are mutually inverse on
the six recognized labels, and every suggestion retained in an Output
carries as `meme_type_desc` the exact input label its `meme_type` was
parsed from. -/
theorem memeType_tables_mutually_inverse :
    (∀ t, memeTypeOfString (MemeTypeDesc.new t) = some t) ∧
    (∀ s t, memeTypeOfString s = some t → MemeTypeDesc.new t = s) ∧
    (∀ (units : List InferenceUnit) (s : VideoAnalyzerSuggestion),
       s ∈ ((VideoAnalyzerOutput.fromInference ⟨units⟩).suggestions.getD []) →
         memeTypeOfString s.meme_type_desc = some s.meme_type ∧
         ∃ u ∈ units, u.suggestion = s.meme_type_desc) := by
  refine ⟨memeTypeOfString_new, new_memeTypeOfString, ?_⟩
  intro units s hs
  simp only [VideoAnalyzerOutput.fromInference, VideoAnalyzerOutput.fromSuggestions,
    InferenceOutput.into_inner, Option.getD_some] at hs
  obtain ⟨u, hu, hconv⟩ := List.mem_filterMap.mp hs
  rw [convertUnitMod_eq_lookup] at hconv
  cases h : memeTypeOfString u.suggestion with
  | none => rw [h] at hconv; exact Option.noConfusion hconv
  | some mt =>
    rw [h] at hconv
    have hconv' : VideoAnalyzerSuggestion.new u.start u.«end» mt = s :=
      Option.some.inj hconv
    subst hconv'
    have hdesc : MemeTypeDesc.new mt = u.suggestion := new_memeTypeOfString _ _ h
    refine ⟨?_, u, hu, ?_⟩
    · exact memeTypeOfString_new mt
    · exact hdesc.symm

/-- C9 witness: the inverse properties at the concrete label "anger". -/
theorem memeType_tables_mutually_inverse_witness :
    MemeTypeDesc.new MemeType.Anger = "anger" ∧
    memeTypeOfString
        (VideoAnalyzerSuggestion.mk 0 5 MemeType.Anger "anger").meme_type_desc =
      some MemeType.Anger :=
  ⟨memeType_tables_mutually_inverse.2.1 "anger" MemeType.Anger rfl,
   (memeType_tables_mutually_inverse.2.2 [⟨0, 5, "anger"⟩]
      ⟨0, 5, MemeType.Anger, "anger"⟩ (by decide)).1⟩

/-- C10: the conversion defined in src/analyzer.rs and the one defined in
src/analyzer/mod.rs compute the same function on every parsed inference
output. -/
theorem fromInference_impls_agree :
    ∀ o : InferenceOutput, Root.fromInference o = VideoAnalyzerOutput.fromInference o := by
  intro o
  rfl

/-- Reduction of the `Except` monad's bind on an `ok` step. -/
theorem exceptBind_ok {α β ε : Type} (a : α) (f : α → Except ε β) :
    (Except.ok a >>= f : Except ε β) = f a := rfl

/-- Reduction of the `Except` monad's bind on an `error` step. -/
theorem exceptBind_error {α β ε : Type} (e : ε) (f : α → Except ε β) :
    (Except.error e >>= f : Except ε β) = Except.error e := rfl

/-! ## Claim theorems: analyze outcome classification -/

/-- C2: when the external process starts and exits with non-zero status,
`analyze` returns `Ok` carrying an output with absent suggestions — no
error reaches the caller. -/
theorem analyze_soft_failure_ok (env : AnalyzeEnv) (task : Task)
    (d : ScratchDir) (c : String) (po : ProcOutput)
    (htd : env.tempDir = Except.ok d)
    (hc : env.canonicalize = Except.ok c)
    (hrun : env.runProcess (inferenceCommandArgs task d.path) = Except.ok po)
    (hfail : po.exitSuccess = false) :
    VideoAnalyzer.analyze env task = Except.ok { suggestions := none } := by
  simp [VideoAnalyzer.analyze, htd, hc, hrun, hfail, VideoAnalyzerOutput.default,
    exceptBind_ok, exceptBind_error]

/-- C2 witness: a concrete environment whose process exits with status 1. -/
theorem analyze_soft_failure_ok_witness :
    VideoAnalyzer.analyze
      { tempDir := Except.ok ⟨"./tmp0"⟩
        canonicalize := Except.ok "/srv/streameme_inference"
        runProcess := fun _ => Except.ok ⟨false, "Traceback"⟩
        readOutputFile := fun _ => Except.error ⟨"unread"⟩
        parseInference := fun _ => Except.error ⟨"unparsed"⟩ }
      ⟨"v.mp4", "_anonymous", VideoAnalyzerMode.Multi⟩ =
      Except.ok { suggestions := none } :=
  analyze_soft_failure_ok _ _ ⟨"./tmp0"⟩ "/srv/streameme_inference"
    ⟨false, "Traceback"⟩ rfl rfl rfl rfl

/-- C3: a failure of any infrastructure step — scratch-directory creation,
working-directory canonicalization, spawning the process, or (after a
success exit) reading or parsing the result file — makes `analyze`
propagate that very error to the caller through the single `Except.error`
channel, distinct from the soft-failure `Except.ok` case. -/
theorem analyze_terminal_errors (env : AnalyzeEnv) (task : Task) (e : IoError)
    (h : env.tempDir = Except.error e ∨
      (∃ d, env.tempDir = Except.ok d ∧ env.canonicalize = Except.error e) ∨
      (∃ d c, env.tempDir = Except.ok d ∧ env.canonicalize = Except.ok c ∧
        env.runProcess (inferenceCommandArgs task d.path) = Except.error e) ∨
      (∃ d c po, env.tempDir = Except.ok d ∧ env.canonicalize = Except.ok c ∧
        env.runProcess (inferenceCommandArgs task d.path) = Except.ok po ∧
        po.exitSuccess = true ∧
        env.readOutputFile (suggestionsFilePath d.path) = Except.error e) ∨
      (∃ d c po s, env.tempDir = Except.ok d ∧ env.canonicalize = Except.ok c ∧
        env.runProcess (inferenceCommandArgs task d.path) = Except.ok po ∧
        po.exitSuccess = true ∧
        env.readOutputFile (suggestionsFilePath d.path) = Except.ok s ∧
        env.parseInference s = Except.error e)) :
    VideoAnalyzer.analyze env task = Except.error e := by
  rcases h with htd | ⟨d, htd, hc⟩ | ⟨d, c, htd, hc, hrun⟩ |
    ⟨d, c, po, htd, hc, hrun, hok, hread⟩ |
    ⟨d, c, po, s, htd, hc, hrun, hok, hread, hparse⟩
  · simp [VideoAnalyzer.analyze, htd, exceptBind_ok, exceptBind_error]
  · simp [VideoAnalyzer.analyze, htd, hc, exceptBind_ok, exceptBind_error]
  · simp [VideoAnalyzer.analyze, htd, hc, hrun, exceptBind_ok, exceptBind_error]
  · simp [VideoAnalyzer.analyze, htd, hc, hrun, hok, hread, exceptBind_ok, exceptBind_error]
  · simp [VideoAnalyzer.analyze, htd, hc, hrun, hok, hread, hparse,
      exceptBind_ok, exceptBind_error]

/-- C3 witness: a concrete environment where the process cannot be
spawned (missing binary), and one where the result file is missing after
a success exit; both surface the same error value as `Except.error`. -/
theorem analyze_terminal_errors_witness :
    VideoAnalyzer.analyze
      { tempDir := Except.ok ⟨"./tmp0"⟩
        canonicalize := Except.ok "/srv/streameme_inference"
        runProcess := fun _ => Except.error ⟨"No such file or directory"⟩
        readOutputFile := fun _ => Except.error ⟨"unread"⟩
        parseInference := fun _ => Except.error ⟨"unparsed"⟩ }
      ⟨"v.mp4", "_anonymous", VideoAnalyzerMode.Multi⟩ =
      Except.error ⟨"No such file or directory"⟩ ∧
    VideoAnalyzer.analyze
      { tempDir := Except.ok ⟨"./tmp0"⟩
        canonicalize := Except.ok "/srv/streameme_inference"
        runProcess := fun _ => Except.ok ⟨true, ""⟩
        readOutputFile := fun _ => Except.error ⟨"No such file or directory"⟩
        parseInference := fun _ => Except.error ⟨"unparsed"⟩ }
      ⟨"v.mp4", "_anonymous", VideoAnalyzerMode.Multi⟩ =
      Except.error ⟨"No such file or directory"⟩ :=
  ⟨analyze_terminal_errors _ _ ⟨"No such file or directory"⟩
      (Or.inr (Or.inr (Or.inl ⟨⟨"./tmp0"⟩, "/srv/streameme_inference", rfl, rfl, rfl⟩))),
   analyze_terminal_errors _ _ ⟨"No such file or directory"⟩
      (Or.inr (Or.inr (Or.inr (Or.inl
        ⟨⟨"./tmp0"⟩, "/srv/streameme_inference", ⟨true, ""⟩, rfl, rfl, rfl, rfl, rfl⟩))))⟩

/-- C8: whenever `analyze` returns `Ok`, the suggestions are absent
exactly when the run was a soft failure (process ran, non-zero exit); the
success-exit-and-parse path always wraps `Some`. Moreover the serialized
forms of an absent list and an empty list differ (`null` versus `[]`). -/
theorem suggestions_none_iff_soft_failure (env : AnalyzeEnv) (task : Task)
    (out : VideoAnalyzerOutput)
    (h : VideoAnalyzer.analyze env task = Except.ok out) :
    (out.suggestions = none ↔
      ∃ d po, env.tempDir = Except.ok d ∧
        env.runProcess (inferenceCommandArgs task d.path) = Except.ok po ∧
        po.exitSuccess = false) ∧
    serializeOutput { suggestions := none } ≠
      serializeOutput { suggestions := some [] } := by
  refine ⟨?_, by decide⟩
  rw [VideoAnalyzer.analyze] at h
  rcases htd : env.tempDir with e | d
  · simp [htd, exceptBind_error] at h
  rw [htd, exceptBind_ok] at h
  rcases hc : env.canonicalize with e | c
  · simp [hc, exceptBind_error] at h
  rw [hc, exceptBind_ok] at h
  rcases hrun : env.runProcess (inferenceCommandArgs task d.path) with e | po
  · simp [hrun, exceptBind_error] at h
  rw [hrun, exceptBind_ok] at h
  rcases hstatus : po.exitSuccess with _ | _
  · rw [hstatus] at h
    simp only [Bool.false_eq_true, if_false, VideoAnalyzerOutput.default,
      Except.ok.injEq] at h
    subst h
    simp only [true_iff]
    exact ⟨d, po, rfl, hrun, hstatus⟩
  · rw [hstatus] at h
    simp only [if_true] at h
    rcases hread : env.readOutputFile (suggestionsFilePath d.path) with e | s
    · simp [hread, exceptBind_error] at h
    rw [hread, exceptBind_ok] at h
    rcases hparse : env.parseInference s with e | io
    · simp [hparse, exceptBind_error] at h
    rw [hparse, exceptBind_ok] at h
    simp only [VideoAnalyzerOutput.fromInference, VideoAnalyzerOutput.fromSuggestions,
      Except.ok.injEq] at h
    subst h
    constructor
    · intro hnone
      exact Option.noConfusion hnone
    · rintro ⟨d', po', htd', hrun', hfail'⟩
      cases Except.ok.inj htd'
      rw [hrun] at hrun'
      cases Except.ok.inj hrun'
      rw [hstatus] at hfail'
      exact Bool.noConfusion hfail'

/-- C8 witness: a concrete success-exit environment whose parsed result
is empty — the output wraps `Some []`, not `None`, and `[]` serializes
differently from `null`. -/
theorem suggestions_none_iff_soft_failure_witness :
    ((VideoAnalyzerOutput.mk (some [])).suggestions = none ↔
      ∃ d po,
        ({ tempDir := Except.ok ⟨"./tmp0"⟩
           canonicalize := Except.ok "/srv/streameme_inference"
           runProcess := fun _ => Except.ok ⟨true, ""⟩
           readOutputFile := fun _ => Except.ok "[]"
           parseInference := fun _ => Except.ok ⟨[]⟩ } : AnalyzeEnv).tempDir =
          Except.ok d ∧
        ({ tempDir := Except.ok ⟨"./tmp0"⟩
           canonicalize := Except.ok "/srv/streameme_inference"
           runProcess := fun _ => Except.ok ⟨true, ""⟩
           readOutputFile := fun _ => Except.ok "[]"
           parseInference := fun _ => Except.ok ⟨[]⟩ } : AnalyzeEnv).runProcess
            (inferenceCommandArgs ⟨"v.mp4", "_anonymous", VideoAnalyzerMode.Multi⟩ d.path) =
          Except.ok po ∧
        po.exitSuccess = false) ∧
    serializeOutput { suggestions := none } ≠
      serializeOutput { suggestions := some [] } :=
  suggestions_none_iff_soft_failure _
    ⟨"v.mp4", "_anonymous", VideoAnalyzerMode.Multi⟩ ⟨some []⟩ rfl

/-! ## Claim theorems: submission and invocation -/

/-- C6: `Task::spawn` always returns one of two outcomes — with a live
consumer it enqueues the wrapped task at the tail and hands back a
handle; with the consumer shut down it fails with a send error carrying
the original `Task` value back to the caller. -/
theorem spawn_enqueues_or_returns_task (task : Task) (buf : BufferState) :
    (buf.consumerOpen = true →
      Task.spawn task buf =
        Except.ok
          ({ buf with queued := buf.queued ++ [{ task := task, receiverAlive := true }] },
           { forTask := task })) ∧
    (buf.consumerOpen = false → Task.spawn task buf = Except.error task) := by
  constructor
  · intro hopen
    simp [Task.spawn, VideoAnalyzerBuffer.send, hopen]
  · intro hclosed
    simp [Task.spawn, VideoAnalyzerBuffer.send, hclosed]

/-- C6 witness: both branches at concrete buffers; the closed-consumer
branch hands the exact submitted task back. -/
theorem spawn_enqueues_or_returns_task_witness :
    Task.spawn ⟨"v.mp4", "clip", VideoAnalyzerMode.Binary⟩ ⟨true, []⟩ =
      Except.ok
        (⟨true, [⟨⟨"v.mp4", "clip", VideoAnalyzerMode.Binary⟩, true⟩]⟩,
         ⟨⟨"v.mp4", "clip", VideoAnalyzerMode.Binary⟩⟩) ∧
    Task.spawn ⟨"v.mp4", "clip", VideoAnalyzerMode.Binary⟩ ⟨false, []⟩ =
      Except.error ⟨"v.mp4", "clip", VideoAnalyzerMode.Binary⟩ :=
  ⟨(spawn_enqueues_or_returns_task ⟨"v.mp4", "clip", VideoAnalyzerMode.Binary⟩
      ⟨true, []⟩).1 rfl,
   (spawn_enqueues_or_returns_task ⟨"v.mp4", "clip", VideoAnalyzerMode.Binary⟩
      ⟨false, []⟩).2 rfl⟩

/-- C7: the constructed invocation consists exactly of the script name
and the three argument pairs `--video_path`, `--video_name`,
`--output_dir`; two tasks differing only in `analyze_mode` produce the
identical command line, and indeed the whole of `analyze` is insensitive
to the mode. -/
theorem command_args_mode_independent :
    (∀ (task : Task) (outDirPath : String),
      inferenceCommandArgs task outDirPath =
        ["inference.py",
         "--video_path", task.video_path,
         "--video_name", task.video_name,
         "--output_dir", outDirPath]) ∧
    (∀ (p n : String) (m₁ m₂ : VideoAnalyzerMode) (d : String),
      inferenceCommandArgs ⟨p, n, m₁⟩ d = inferenceCommandArgs ⟨p, n, m₂⟩ d) ∧
    (∀ (env : AnalyzeEnv) (p n : String) (m₁ m₂ : VideoAnalyzerMode),
      VideoAnalyzer.analyze env ⟨p, n, m₁⟩ = VideoAnalyzer.analyze env ⟨p, n, m₂⟩) := by
  refine ⟨fun task outDirPath => rfl, fun p n m₁ m₂ d => rfl, fun env p n m₁ m₂ => rfl⟩

/-! ## Claim theorems: the worker loop -/

/-- Unfolding of one worker-loop iteration. -/
theorem run_cons (env : AnalyzeEnv) (st : SpawnedTask) (rest : List SpawnedTask) :
    VideoAnalyzer.run env (st :: rest) =
      WorkerEvent.beginExec st.task ::
        WorkerEvent.endExec st.task
          (st.send (VideoAnalyzer.analyze env st.task)).toBool ::
        VideoAnalyzer.run env rest := rfl

/-- The worker trace of a concatenated queue is the concatenation of the
traces: each task's iteration is independent of the earlier ones. -/
theorem run_append (env : AnalyzeEnv) (a b : List SpawnedTask) :
    VideoAnalyzer.run env (a ++ b) =
      VideoAnalyzer.run env a ++ VideoAnalyzer.run env b := by
  induction a with
  | nil => rfl
  | cons st rest ih => rw [List.cons_append, run_cons, run_cons, ih]; rfl

/-- The worker executes exactly the queued tasks, in arrival order. -/
theorem run_executedTasks (env : AnalyzeEnv) (q : List SpawnedTask) :
    executedTasks (VideoAnalyzer.run env q) = q.map SpawnedTask.task := by
  induction q with
  | nil => rfl
  | cons st rest ih => rw [run_cons]; simp [executedTasks] at ih ⊢; exact ih

/-- Along every prefix of the worker trace, the number of executions in
progress stays between 0 and 1. -/
theorem run_take_depth (env : AnalyzeEnv) (q : List SpawnedTask) :
    ∀ n, 0 ≤ execDepth ((VideoAnalyzer.run env q).take n) ∧
      execDepth ((VideoAnalyzer.run env q).take n) ≤ 1 := by
  induction q with
  | nil => intro n; simp [VideoAnalyzer.run, execDepth]
  | cons st rest ih =>
    intro n
    match n with
    | 0 => simp [execDepth]
    | 1 => rw [run_cons]; simp [execDepth]
    | Nat.succ (Nat.succ k) =>
      have hk := ih k
      rw [run_cons]
      simp only [List.take_succ_cons, execDepth]
      omega

/-- C1: the worker loop processes accepted tasks in strict FIFO arrival
order — the executed-task sequence equals the queue, so nothing is
reordered or dropped — and at every point of the trace at most one task
is being executed. -/
theorem run_fifo_single_inflight (env : AnalyzeEnv) (queue : List SpawnedTask) :
    executedTasks (VideoAnalyzer.run env queue) = queue.map SpawnedTask.task ∧
    ∀ n, 0 ≤ execDepth ((VideoAnalyzer.run env queue).take n) ∧
      execDepth ((VideoAnalyzer.run env queue).take n) ≤ 1 :=
  ⟨run_executedTasks env queue, run_take_depth env queue⟩

/-- C5: when a submitter has dropped its receiving handle, the worker's
send is a failed no-op whose error is discarded (`sendOk = false` in the
trace), the loop neither crashes nor exits early, and every queued task —
including those after the abandoned one — is still executed normally. -/
theorem run_survives_abandoned_handle (env : AnalyzeEnv)
    (q₁ q₂ : List SpawnedTask) (st : SpawnedTask)
    (h : st.receiverAlive = false) :
    VideoAnalyzer.run env (q₁ ++ st :: q₂) =
      VideoAnalyzer.run env q₁ ++
        WorkerEvent.beginExec st.task ::
        WorkerEvent.endExec st.task false ::
        VideoAnalyzer.run env q₂ ∧
    executedTasks (VideoAnalyzer.run env (q₁ ++ st :: q₂)) =
      q₁.map SpawnedTask.task ++ st.task :: q₂.map SpawnedTask.task := by
  constructor
  · rw [run_append, run_cons]
    simp [SpawnedTask.send, h, Except.toBool]
  · rw [run_executedTasks]
    simp

/-- C5 witness: a two-task queue whose first submitter abandoned its
handle; the second task is still executed. -/
theorem run_survives_abandoned_handle_witness :
    executedTasks
        (VideoAnalyzer.run sampleEnv
          [⟨⟨"a.mp4", "a", VideoAnalyzerMode.Multi⟩, false⟩,
           ⟨⟨"b.mp4", "b", VideoAnalyzerMode.Multi⟩, true⟩]) =
      [⟨"a.mp4", "a", VideoAnalyzerMode.Multi⟩,
       ⟨"b.mp4", "b", VideoAnalyzerMode.Multi⟩] :=
  (run_survives_abandoned_handle sampleEnv []
    [⟨⟨"b.mp4", "b", VideoAnalyzerMode.Multi⟩, true⟩]
    ⟨⟨"a.mp4", "a", VideoAnalyzerMode.Multi⟩, false⟩ rfl).2

end Streameme
